import Mathlib

/-!
Shallow embedding of `src/blockchain/chain.rs` from the Alfis name-registration
blockchain, together with theorems checking the specification's claims about
block admission control, identity/domain availability, locker election and
block persistence.

Machine integers are modelled as `Nat` / `Int` with explicit `% 2 ^ 64`
wrapping where the Rust code can overflow.  `Bytes` is modelled as `List Nat`
(one entry per byte).  The sqlite tables are modelled as lists of rows in
insertion order: `blocksTable` models the `blocks` table (primary key `id` =
block index) and `txTable` models the `transactions` table (`id` is the
auto-increment rowid, so list order is `id` order).

External collaborators that are not part of this repository's source
(`Bytes`, `Block` helper methods, the crypto primitives of `hash_utils`, the
constants of `constants.rs` and `Settings`) are modelled from the spec; each
such definition carries a doc comment saying so.  The wall clock
(`Utc::now().timestamp()`) and the trusted crypto black boxes are fields of a
context `Ctx`, alongside the tunable constants.
-/

/-! ## Definitions -/

/-- Transaction record, mirroring `crate::Transaction` as stored/loaded by
`chain.rs` (`identity`, `confirmation`, `method`, `data`, `pub_key`). -/
structure Transaction where
  identity : List Nat
  confirmation : List Nat
  method : List Char
  data : List Char
  pub_key : List Nat
deriving DecidableEq

/-- Block record, mirroring `crate::Block` with the fields used by
`chain.rs`: index (u64), timestamp (i64), version (u32), difficulty (u32),
random (u32), nonce (u64), optional transaction, and the byte fields. -/
structure Block where
  index : Nat
  timestamp : Int
  version : Nat
  difficulty : Nat
  random : Nat
  nonce : Nat
  transaction : Option Transaction
  prev_block_hash : List Nat
  hash : List Nat
  pub_key : List Nat
  signature : List Nat
deriving DecidableEq

/-- Verdicts of `Chain::check_new_block`, mirroring
`crate::blockchain::enums::BlockQuality`. -/
inductive BlockQuality where
  | Good
  | Bad
  | Fork
  | Twin
  | Future
deriving DecidableEq

/-- State owned by `struct Chain`: the configured origin hash, the two sqlite
tables, the in-memory `blocks` vector, the cached head (`last_block`), the
cached last full block, the zones cache and `max_height`. -/
structure ChainState where
  origin : List Nat
  blocksTable : List Block
  txTable : List Transaction
  blocks : List Block
  last_block : Option Block
  last_full_block : Option Block
  zones : List (List Char)
  max_height : Nat
deriving DecidableEq

/-- Context of a `Chain` evaluation: the tunable constants from
`constants.rs` / `Settings` (not part of `src/`), the trusted crypto black
boxes of `hash_utils` (not part of `src/`), and the wall clock reading
`Utc::now().timestamp()` taken at the start of `check_new_block`. -/
structure Ctx where
  BLOCK_DIFFICULTY : Nat
  LOCKER_DIFFICULTY : Nat
  LOCKER_BLOCK_START : Nat
  LOCKER_BLOCK_COUNT : Nat
  LOCKER_BLOCK_INTERVAL : Int
  check_block_hash : Block → Bool
  check_block_signature : Block → Bool
  hash_identity : List Char → List Nat
  now : Int

/-- Modelled from the spec: `Bytes::is_zero`, used for the "may be
unset/zero to mean accept any genesis" origin test and the zero-hash test of
`get_block_locker`; a byte string is zero when every byte is zero. -/
def is_zero (b : List Nat) : Bool :=
  b.all (fun x => x == 0)

/-- Modelled from the spec: the external primitive
`hash_utils::hash_is_good(hash, difficulty)` — "block.hash must have at
least block.difficulty leading zero bits".  Leading zero bits of one byte. -/
def byte_leading_zeros (b : Nat) : Nat :=
  if 128 ≤ b then 0
  else if 64 ≤ b then 1
  else if 32 ≤ b then 2
  else if 16 ≤ b then 3
  else if 8 ≤ b then 4
  else if 4 ≤ b then 5
  else if 2 ≤ b then 6
  else if 1 ≤ b then 7
  else 8

/-- Modelled from the spec: leading zero bits of a byte string, big-endian. -/
def leading_zero_bits : List Nat → Nat
  | [] => 0
  | b :: rest => if b = 0 then 8 + leading_zero_bits rest else byte_leading_zeros b

/-- Modelled from the spec: `hash_is_good hash difficulty` holds when the
hash has at least `difficulty` leading zero bits. -/
def hash_is_good (hash : List Nat) (difficulty : Nat) : Bool :=
  decide (difficulty ≤ leading_zero_bits hash)

/-- Modelled from the spec: `Bytes::get_tail_u64` — "tail = low 64 bits of
B.hash", i.e. the last 8 bytes read as a big-endian integer. -/
def get_tail_u64 (hash : List Nat) : Nat :=
  (hash.drop (hash.length - 8)).foldl (fun acc b => acc * 256 + b) 0

/-- Modelled from the spec: `Block::is_genesis` — "candidate must be a
genesis block (well-known index/shape); genesis is index 0" (§3).  Only the
index is pinned down by the spec. -/
def is_genesis (block : Block) : Bool :=
  block.index == 0

/-- `Chain::get_block(index)`: `SELECT * FROM blocks WHERE id=? LIMIT 1` —
the stored block at the given index (`id` is the primary key, so at most one
row matches). -/
def get_block (st : ChainState) (index : Nat) : Option Block :=
  st.blocksTable.find? (fun b => b.index == index)

/-- Row with the greatest `id` (block index) among a list of rows, mirroring
`ORDER BY id DESC LIMIT 1`. -/
def max_by_index : List Block → Option Block
  | [] => none
  | b :: rest =>
    match max_by_index rest with
    | none => some b
    | some m => if m.index < b.index then some b else some m

/-- `Chain::get_last_full_block`: `SELECT * FROM blocks WHERE
transaction<>'' ORDER BY id DESC LIMIT 1` — the stored block with the
greatest index among those carrying a transaction. -/
def get_last_full_block (st : ChainState) : Option Block :=
  max_by_index (st.blocksTable.filter (fun b => b.transaction.isSome))

/-- All `pub_key` values recorded in the transactions table for an identity,
in `id` (insertion) order: the identity's historical owners, oldest first. -/
def find_owners (st : ChainState) (identity : List Nat) : List (List Nat) :=
  (st.txTable.filter (fun t => t.identity == identity)).map Transaction.pub_key

/-- Result row of `SQL_GET_PUBLIC_KEY_BY_ID`: `SELECT pub_key FROM
transactions WHERE identity = ? ORDER BY id DESC LIMIT 1` — only the most
recently recorded owner, if any. -/
def sql_latest_pub_key (st : ChainState) (identity : List Nat) : Option (List Nat) :=
  (find_owners st identity).getLast?

/-- `Chain::is_id_available`: runs `SQL_GET_PUBLIC_KEY_BY_ID` (which has
`LIMIT 1`) and returns false iff the returned row's key differs from
`public_key`. -/
def is_id_available (st : ChainState) (identity : List Nat) (public_key : List Nat) : Bool :=
  match sql_latest_pub_key st identity with
  | none => true
  | some pub_key => pub_key == public_key

/-- `Chain::is_zone_in_blockchain`: cache hit, or any transactions-table row
whose identity is the zone's identity hash (`SQL_GET_ID_BY_ID`; the
`RefCell` cache insertion performed on a hit does not change the returned
value and is dropped here). -/
def is_zone_in_blockchain (ctx : Ctx) (st : ChainState) (zone : List Char) : Bool :=
  if st.zones.contains zone then true
  else st.txTable.any (fun t => t.identity == ctx.hash_identity zone)

/-- Split a character list on `'.'`, mirroring `str::split('.')`
segmentation: `splitDots l` is the list of dot-free segments of `l`. -/
def splitDots : List Char → List (List Char)
  | [] => [[]]
  | c :: rest =>
    if c = '.' then [] :: splitDots rest
    else
      match splitDots rest with
      | [] => [[c]]
      | h :: t => (c :: h) :: t

/-- Join segments back with `'.'` separators (inverse of `splitDots`). -/
def joinDots : List (List Char) → List Char
  | [] => []
  | [p] => p
  | p :: ps => p ++ '.' :: joinDots ps

/-- Rust `domain.rsplitn(2, ".").collect::<Vec<_>>()`: at most two pieces,
splitting at the LAST dot; element 0 is the part after the last dot, element
1 the part before it.  A dot-free string yields the single piece `[l]`. -/
def rsplitn2 (l : List Char) : List (List Char) :=
  if (splitDots l).length ≤ 1 then [l]
  else [(splitDots l).getLastD [], joinDots (splitDots l).dropLast]

/-- `Chain::is_domain_available(domain, keystore)`; the keystore only
contributes `keystore.get_public()`, passed here as `public_key`. -/
def is_domain_available (ctx : Ctx) (st : ChainState) (domain : List Char)
    (public_key : List Nat) : Bool :=
  if domain.isEmpty then false
  else if ! is_id_available st (ctx.hash_identity domain) public_key then false
  else if 1 < (rsplitn2 domain).length then
    if decide ('.' ∈ (rsplitn2 domain).getLastD []) then false
    else is_zone_in_blockchain ctx st ((rsplitn2 domain).headD [])
  else true

/-- Reinterpret a mathematical integer as a 64-bit two's-complement value,
modelling Rust `i64` arithmetic results (`x as i64`). -/
def wrap_i64 (x : Int) : Int :=
  (x + 2 ^ 63) % 2 ^ 64 - 2 ^ 63

/-- The `intervals` computation of `get_block_locker`:
`((timestamp - block.timestamp) / LOCKER_BLOCK_INTERVAL) as u64`, i.e. the
i64 truncating division, reinterpreted as u64. -/
def locker_intervals (ctx : Ctx) (block : Block) (timestamp : Int) : Nat :=
  (((wrap_i64 (timestamp - block.timestamp)).tdiv ctx.LOCKER_BLOCK_INTERVAL)
    % (2 ^ 64 : Int)).toNat

/-- The `start_index` computation of `get_block_locker`:
`1 + ((tail + tail * intervals) % (block.index - 2))` in wrapping u64
arithmetic (the sum/product wrap at `2 ^ 64`). -/
def locker_start (ctx : Ctx) (block : Block) (timestamp : Int) : Nat :=
  1 + ((get_tail_u64 block.hash
        + get_tail_u64 block.hash * locker_intervals ctx block timestamp) % 2 ^ 64)
      % (block.index - 2)

/-- The early-exit test of `get_block_locker` on the last full block:
`b.index + LOCKER_BLOCK_COUNT <= block.index` ("locked enough"). -/
def lockedEnough (ctx : Ctx) (st : ChainState) (block : Block) : Bool :=
  match get_last_full_block st with
  | some b => decide (b.index + ctx.LOCKER_BLOCK_COUNT ≤ block.index)
  | none => false

/-- `Chain::get_block_locker(block, timestamp)`: the deterministic locker
election.  Returns the public key that must mine the next locker block above
`block`, or `none` for "unrestricted". -/
def get_block_locker (ctx : Ctx) (st : ChainState) (block : Block)
    (timestamp : Int) : Option (List Nat) :=
  if block.hash.isEmpty || is_zero block.hash then none
  else if block.index < ctx.LOCKER_BLOCK_START then none
  else if lockedEnough ctx st block then none
  else
    (List.range' (locker_start ctx block timestamp)
        (block.index - locker_start ctx block timestamp)).findSome?
      (fun index =>
        match get_block st index with
        | some b => if b.pub_key ≠ block.pub_key then some b.pub_key else none
        | none => none)

/-- The minimum difficulty demanded by `check_new_block`:
`LOCKER_DIFFICULTY` for a transaction-free (locker) block, `BLOCK_DIFFICULTY`
for a full block. -/
def required_difficulty (ctx : Ctx) (block : Block) : Nat :=
  match block.transaction with
  | none => ctx.LOCKER_DIFFICULTY
  | some _ => ctx.BLOCK_DIFFICULTY

/-- The identity-spoof test of `check_new_block`: a transaction is present
and its identity is not available to the block's signer. -/
def identity_spoofed (st : ChainState) (block : Block) : Bool :=
  match block.transaction with
  | some t => ! is_id_available st t.identity block.pub_key
  | none => false

/-- The duplicate/fork test inside the `block.index <= last_block.index`
branch of `check_new_block`: `Twin` when the candidate's hash matches the
head's, else `Fork`/`Twin` against the locally stored block at
`block.index`; `none` when no block is stored there (fall through). -/
def twin_fork_check (st : ChainState) (block last_block : Block) : Option BlockQuality :=
  if last_block.hash = block.hash then some BlockQuality.Twin
  else
    match get_block st block.index with
    | some my_block =>
      if my_block.hash ≠ block.hash then some BlockQuality.Fork
      else some BlockQuality.Twin
    | none => none

/-- The `None` (no local head) arm of `check_new_block`'s final match: the
candidate must be genesis, and must match a configured non-zero origin. -/
def check_genesis (st : ChainState) (block : Block) : BlockQuality :=
  if is_genesis block = false then BlockQuality.Future
  else if is_zero st.origin = false ∧ block.hash ≠ st.origin then BlockQuality.Bad
  else BlockQuality.Good

/-- The `Some(last_block)` (local head exists) arm of `check_new_block`'s
final match: temporal paradox, unbridgeable gap, twin/fork detection, and
the locker restriction for transaction-free blocks. -/
def check_linkage (ctx : Ctx) (st : ChainState) (block last_block : Block) : BlockQuality :=
  if block.timestamp < last_block.timestamp ∧ last_block.index < block.index then
    BlockQuality.Bad
  else if last_block.index + 1 < block.index then BlockQuality.Future
  else
    match (if block.index ≤ last_block.index then twin_fork_check st block last_block
           else none) with
    | some q => q
    | none =>
      match block.transaction with
      | some _ => BlockQuality.Good
      | none =>
        match get_block_locker ctx st last_block block.timestamp with
        | some locker =>
          if locker ≠ block.pub_key then BlockQuality.Bad else BlockQuality.Good
        | none => BlockQuality.Good

/-- `Chain::check_new_block(block)`: the admission-control state machine.
`ctx.now` is the `Utc::now().timestamp()` reading taken on entry. -/
def check_new_block (ctx : Ctx) (st : ChainState) (block : Block) : BlockQuality :=
  if ctx.now < block.timestamp then BlockQuality.Bad
  else if block.difficulty < required_difficulty ctx block then BlockQuality.Bad
  else if hash_is_good block.hash block.difficulty = false then BlockQuality.Bad
  else if ctx.check_block_hash block = false then BlockQuality.Bad
  else if ctx.check_block_signature block = false then BlockQuality.Bad
  else if identity_spoofed st block = true then BlockQuality.Bad
  else
    match st.last_block with
    | none => check_genesis st block
    | some last_block => check_linkage ctx st block last_block

/-- The first six rules of `check_new_block` (timestamp, declared
difficulty, hash difficulty, hash consistency, signature, identity spoof)
all pass, so evaluation reaches the chain-linkage rules. -/
def pre_rules_pass (ctx : Ctx) (st : ChainState) (block : Block) : Bool :=
  !(decide (ctx.now < block.timestamp))
  && !(decide (block.difficulty < required_difficulty ctx block))
  && hash_is_good block.hash block.difficulty
  && ctx.check_block_hash block
  && ctx.check_block_signature block
  && !(identity_spoofed st block)

/-- `Chain::add_block(block)`: pushes the block onto the in-memory vector,
refreshes the `last_block` / `last_full_block` caches, then inserts into the
`blocks` table and — only if that insert reported success — inserts the
transaction into the `transactions` table, where a failing transaction
insert panics (`expect`).  The two insert outcomes are passed explicitly;
the returned Bool is true when the call panicked after the block insert. -/
def add_block (st : ChainState) (block : Block)
    (block_write_ok tx_write_ok : Bool) : ChainState × Bool :=
  let st1 : ChainState :=
    { st with
      blocks := st.blocks ++ [block],
      last_block := some block,
      last_full_block :=
        match block.transaction with
        | some _ => some block
        | none => st.last_full_block }
  if block_write_ok then
    let st2 := { st1 with blocksTable := st1.blocksTable ++ [block] }
    match block.transaction with
    | none => (st2, false)
    | some t =>
      if tx_write_ok then ({ st2 with txTable := st2.txTable ++ [t] }, false)
      else (st2, true)
  else (st1, false)

/-- Control of `get_block_locker` reaches the `start_index` computation:
the reference block's hash is non-empty and non-zero, its index is at or
above the activation height, and the last-full-block window is still open. -/
def locker_reaches_modulus (ctx : Ctx) (st : ChainState) (block : Block) : Prop :=
  block.hash.isEmpty = false ∧ is_zero block.hash = false ∧
  ctx.LOCKER_BLOCK_START ≤ block.index ∧ lockedEnough ctx st block = false

/-- A concrete context: zero difficulties, activation height 3, window 5,
interval 300 s, black boxes that accept everything, clock at 1000. -/
def ctx0 : Ctx :=
  { BLOCK_DIFFICULTY := 0, LOCKER_DIFFICULTY := 0, LOCKER_BLOCK_START := 3,
    LOCKER_BLOCK_COUNT := 5, LOCKER_BLOCK_INTERVAL := 300,
    check_block_hash := fun _ => true, check_block_signature := fun _ => true,
    hash_identity := fun _ => [], now := 1000 }

/-- Block at a given index with a given hash, public key and optional
transaction; every other field zero/empty. -/
def mkBlock (i : Nat) (h : List Nat) (pk : List Nat) (tx : Option Transaction) : Block :=
  { index := i, timestamp := 0, version := 0, difficulty := 0, random := 0, nonce := 0,
    transaction := tx, prev_block_hash := [], hash := h, pub_key := pk, signature := [] }

/-- The empty chain state with an unset (zero) origin. -/
def st0 : ChainState :=
  { origin := [], blocksTable := [], txTable := [], blocks := [],
    last_block := none, last_full_block := none, zones := [], max_height := 0 }

/-- Transactions table holding a historical owner `[2]` followed by a more
recent owner `[1]` for identity `[1]`. -/
def c2st : ChainState :=
  { st0 with txTable := [⟨[1], [], [], [], [2]⟩, ⟨[1], [], [], [], [1]⟩] }

/-- Transactions table where the only recorded owner of `[1]` is `[7]`. -/
def c2wst : ChainState :=
  { st0 with txTable := [⟨[1], [], [], [], [7]⟩] }

/-- A transaction registering identity `[1]` to owner `[2]`. -/
def c9tx : Transaction := ⟨[1], [], [], [], [2]⟩

/-- A full block carrying `c9tx`. -/
def c9b : Block := mkBlock 3 [1] [2] (some c9tx)

/-- A high-index block with an all-zero hash. -/
def c10b : Block := mkBlock 50 [0, 0] [5] none

/-- Stored locker block at index 2 owned by `[9]`. -/
def c3b2 : Block := mkBlock 2 [7] [9] none

/-- Reference full block at index 4 owned by `[5]`, hash `[1]`. -/
def c3B : Block := mkBlock 4 [1] [5] (some ⟨[3], [], [], [], [5]⟩)

/-- Chain state holding `c3b2` and `c3B`; `c3B` is the last full block. -/
def c3st : ChainState :=
  { st0 with blocksTable := [c3b2, c3B], last_block := some c3B }

/-- Genesis candidate: index 0, empty hash, no transaction. -/
def c6b : Block := mkBlock 0 [] [5] none

/-- Stored genesis block, hash `[1]`. -/
def c1b0 : Block := mkBlock 0 [1] [5] none

/-- Stored head at index 1, hash `[2]`. -/
def c1b1 : Block := mkBlock 1 [2] [5] none

/-- Chain holding `c1b0` and head `c1b1`. -/
def c1st : ChainState :=
  { st0 with blocksTable := [c1b0, c1b1], last_block := some c1b1 }

/-- Candidate at index 0 whose hash equals the HEAD's hash `[2]` but differs
from the hash of the block stored at index 0. -/
def c1cand : Block := mkBlock 0 [2] [5] none

/-- Non-genesis candidate at index 1 with no local head. -/
def c5b : Block := mkBlock 1 [1] [5] none

/-- Head block at index 10. -/
def c8head : Block := mkBlock 10 [3] [5] none

/-- Chain whose head is `c8head`. -/
def c8st : ChainState :=
  { st0 with blocksTable := [c8head], last_block := some c8head }

/-- Candidate at index 12. -/
def c8cand : Block := mkBlock 12 [1] [5] none

/-! ## Theorems -/

/-- When the six pre-linkage rules pass, `check_new_block` is decided by the
chain-linkage rules alone. -/
theorem check_new_block_pre (ctx : Ctx) (st : ChainState) (block : Block)
    (h : pre_rules_pass ctx st block = true) :
    check_new_block ctx st block =
      match st.last_block with
      | none => check_genesis st block
      | some last_block => check_linkage ctx st block last_block := by
  unfold pre_rules_pass at h
  simp only [Bool.and_eq_true, Bool.not_eq_true', decide_eq_false_iff_not] at h
  obtain ⟨⟨⟨⟨⟨h1, h2⟩, h3⟩, h4⟩, h5⟩, h6⟩ := h
  unfold check_new_block
  rw [if_neg h1, if_neg h2, if_neg (by simp [h3]), if_neg (by simp [h4]),
    if_neg (by simp [h5]), if_neg (by simp [h6])]

/-- An element returned by `getLast?` is a member of the list. -/
theorem mem_of_getLast?_eq_some {α : Type} {l : List α} {a : α}
    (h : l.getLast? = some a) : a ∈ l := by
  obtain ⟨hne, heq⟩ := List.mem_getLast?_eq_getLast h
  exact heq ▸ List.getLast_mem hne

/-- Claim C2 is false as stated: with owners `[2]` then `[1]` recorded for
identity `[1]`, a differing owner (`[2]`) has been recorded, yet
`is_id_available` returns true for requester `[1]` — the `LIMIT 1` in
`SQL_GET_PUBLIC_KEY_BY_ID` makes the code inspect only the most recent
owner, not every owner ever recorded. -/
theorem claim_C2_counterexample :
    is_id_available c2st [1] [1] = true
  ∧ [2] ∈ find_owners c2st [1]
  ∧ ([2] : List Nat) ≠ [1] := by decide

/-- Claim C2 (amended): `is_id_available identity public_key` returns true
iff the store records no owner for `identity` or the MOST RECENTLY recorded
owner equals `public_key`; in particular it still returns true whenever
every recorded owner equals `public_key`. -/
theorem claim_C2_amended (st : ChainState) (identity public_key : List Nat) :
    (is_id_available st identity public_key = true ↔
      (sql_latest_pub_key st identity = none
        ∨ sql_latest_pub_key st identity = some public_key))
  ∧ ((∀ o ∈ find_owners st identity, o = public_key) →
      is_id_available st identity public_key = true) := by
  constructor
  · unfold is_id_available
    cases h : sql_latest_pub_key st identity with
    | none => simp
    | some pk => simp
  · intro hall
    unfold is_id_available
    cases h : sql_latest_pub_key st identity with
    | none => rfl
    | some pk =>
      have hmem : pk ∈ find_owners st identity := mem_of_getLast?_eq_some h
      simp [hall pk hmem]

/-- Witness for claim C2's amended theorem at a concrete store. -/
theorem claim_C2_witness :
    (∀ o ∈ find_owners c2wst [1], o = [7])
  ∧ is_id_available c2wst [1] [7] = true :=
  ⟨by decide, (claim_C2_amended c2wst [1] [7]).2 (by decide)⟩

/-- Claim C9 is right and the code is wrong: `add_block` is not atomic.
When the blocks-table insert succeeds and the transactions-table insert
fails, the block stays recorded with its transaction missing (and the call
panics); when the blocks-table insert fails, state has still changed — the
in-memory vector and the `last_block` cache were already updated. -/
theorem claim_C9_code_bug :
    ((add_block st0 c9b true false).1.blocksTable = [c9b]
      ∧ (add_block st0 c9b true false).1.txTable = []
      ∧ (add_block st0 c9b true false).2 = true)
  ∧ ((add_block st0 c9b false true).1.blocksTable = []
      ∧ (add_block st0 c9b false true).1.txTable = []
      ∧ (add_block st0 c9b false true).1.last_block = some c9b
      ∧ (add_block st0 c9b false true).1.blocks = [c9b]) := by decide

/-- Claim C10: a reference block whose hash is empty or all-zero makes
`get_block_locker` return `none` (no restriction) for every evaluation time
and chain state. -/
theorem claim_C10 (ctx : Ctx) (st : ChainState) (block : Block) (t : Int)
    (h : block.hash.isEmpty = true ∨ is_zero block.hash = true) :
    get_block_locker ctx st block t = none := by
  unfold get_block_locker
  rcases h with h | h <;> simp [h]

/-- Witness for claim C10 at a concrete zero-hash block. -/
theorem claim_C10_witness :
    (c10b.hash.isEmpty = true ∨ is_zero c10b.hash = true)
  ∧ get_block_locker ctx0 st0 c10b 0 = none :=
  ⟨Or.inr (by decide), claim_C10 ctx0 st0 c10b 0 (Or.inr (by decide))⟩

/-- Claim C4: whenever `get_block_locker` reaches the `start_index`
computation, the modulus `block.index - 2` is strictly positive, given the
spec's constraint that the activation height `LOCKER_BLOCK_START` exceeds 2
(the constant itself lives outside `src/`). -/
theorem claim_C4 (ctx : Ctx) (st : ChainState) (block : Block)
    (hstart : 2 < ctx.LOCKER_BLOCK_START)
    (h : locker_reaches_modulus ctx st block) : 0 < block.index - 2 := by
  obtain ⟨-, -, h3, -⟩ := h
  omega

/-- Witness for claim C4 at a concrete reference block. -/
theorem claim_C4_witness :
    2 < ctx0.LOCKER_BLOCK_START ∧ 0 < c3B.index - 2 :=
  ⟨by decide, claim_C4 ctx0 c3st c3B (by decide)
    ⟨by decide, by decide, by decide, by decide⟩⟩

/-- Claim C6: with an empty chain, zero origin, a genesis (index-0) block
with no transaction, difficulty 0, a timestamp not in the future and hash
and signature accepted by the black boxes, `check_new_block` returns `Good`;
the missing `constants.rs` must put `LOCKER_DIFFICULTY` at 0 for the spec's
scenario, so that value is hypothesised. -/
theorem claim_C6 (ctx : Ctx) (st : ChainState) (block : Block)
    (hld : ctx.LOCKER_DIFFICULTY = 0)
    (hlast : st.last_block = none) (horig : is_zero st.origin = true)
    (hgen : block.index = 0) (htx : block.transaction = none)
    (hdiff : block.difficulty = 0) (hts : block.timestamp ≤ ctx.now)
    (hh : ctx.check_block_hash block = true)
    (hs : ctx.check_block_signature block = true) :
    check_new_block ctx st block = BlockQuality.Good := by
  have h1 : ¬ (ctx.now < block.timestamp) := not_lt.2 hts
  have h2 : required_difficulty ctx block = 0 := by
    simp [required_difficulty, htx, hld]
  have h6 : identity_spoofed st block = false := by simp [identity_spoofed, htx]
  have hpre : pre_rules_pass ctx st block = true := by
    unfold pre_rules_pass
    simp [h1, h2, h6, hh, hs, hash_is_good, hdiff]
  rw [check_new_block_pre ctx st block hpre]
  simp only [hlast]
  have hg : is_genesis block = true := by simp [is_genesis, hgen]
  unfold check_genesis
  rw [if_neg (by simp [hg]), if_neg (by simp [horig])]

/-- Witness for claim C6 on the empty chain with zero origin. -/
theorem claim_C6_witness :
    ctx0.LOCKER_DIFFICULTY = 0 ∧ is_zero st0.origin = true
  ∧ check_new_block ctx0 st0 c6b = BlockQuality.Good :=
  ⟨by decide, by decide,
    claim_C6 ctx0 st0 c6b rfl rfl (by decide) rfl rfl rfl (by decide)
      (by decide) (by decide)⟩

/-- If the twin/fork test settles the candidate, `check_new_block` returns
its verdict, provided the pre-linkage rules pass and the candidate's index
is at or below the head's. -/
theorem check_new_block_twin_fork (ctx : Ctx) (st : ChainState)
    (block last_block : Block)
    (hlast : st.last_block = some last_block)
    (hpre : pre_rules_pass ctx st block = true)
    (hidx : block.index ≤ last_block.index)
    (q : BlockQuality) (hq : twin_fork_check st block last_block = some q) :
    check_new_block ctx st block = q := by
  rw [check_new_block_pre ctx st block hpre]
  simp only [hlast]
  unfold check_linkage
  rw [if_neg (fun h => absurd hidx (by omega)), if_neg (by omega), if_pos hidx, hq]

/-- Claim C1 (amended): with the pre-linkage rules passing and
`block.index <= last.index`: a hash equal to the head's yields `Twin`;
otherwise a stored block at `block.index` yields `Fork` when its hash
differs and `Twin` when it matches; in particular re-submitting a stored
block unchanged yields `Twin`.  (The original claim's unconditional
"stored index with differing hash yields Fork" additionally needs the
candidate's hash to differ from the head's, see the counterexample.) -/
theorem claim_C1_amended (ctx : Ctx) (st : ChainState) (block last_block : Block)
    (hlast : st.last_block = some last_block)
    (hpre : pre_rules_pass ctx st block = true)
    (hidx : block.index ≤ last_block.index) :
    (block.hash = last_block.hash → check_new_block ctx st block = BlockQuality.Twin)
  ∧ (block.hash ≠ last_block.hash →
      ∀ mb, get_block st block.index = some mb →
        (mb.hash ≠ block.hash → check_new_block ctx st block = BlockQuality.Fork)
      ∧ (mb.hash = block.hash → check_new_block ctx st block = BlockQuality.Twin))
  ∧ (get_block st block.index = some block →
      check_new_block ctx st block = BlockQuality.Twin) := by
  refine ⟨fun hh => ?_, fun hne mb hmb => ⟨fun hd => ?_, fun heq => ?_⟩, fun hself => ?_⟩
  · exact check_new_block_twin_fork ctx st block last_block hlast hpre hidx _
      (by unfold twin_fork_check; rw [if_pos hh.symm])
  · refine check_new_block_twin_fork ctx st block last_block hlast hpre hidx _ ?_
    unfold twin_fork_check
    rw [if_neg (fun h => hne h.symm), hmb]
    simp [hd]
  · refine check_new_block_twin_fork ctx st block last_block hlast hpre hidx _ ?_
    unfold twin_fork_check
    rw [if_neg (fun h => hne h.symm), hmb]
    simp [heq]
  · by_cases hh : block.hash = last_block.hash
    · exact check_new_block_twin_fork ctx st block last_block hlast hpre hidx _
        (by unfold twin_fork_check; rw [if_pos hh.symm])
    · refine check_new_block_twin_fork ctx st block last_block hlast hpre hidx _ ?_
      unfold twin_fork_check
      rw [if_neg (fun h => hh h.symm), hself]
      simp

/-- Claim C1 is false as stated: `c1cand` passes the pre-linkage rules, its
index 0 equals an existing stored index whose block's hash `[1]` differs
from the candidate's hash `[2]`, yet the verdict is `Twin`, not `Fork` —
the head-hash test fires first because the candidate's hash equals the
head's. -/
theorem claim_C1_counterexample :
    pre_rules_pass ctx0 c1st c1cand = true
  ∧ c1st.last_block = some c1b1
  ∧ c1cand.index ≤ c1b1.index
  ∧ get_block c1st c1cand.index = some c1b0
  ∧ c1b0.hash ≠ c1cand.hash
  ∧ check_new_block ctx0 c1st c1cand = BlockQuality.Twin
  ∧ check_new_block ctx0 c1st c1cand ≠ BlockQuality.Fork := by decide

/-- Witness for claim C1's amended theorem: re-submitting the stored block
`c1b0` unchanged yields `Twin`. -/
theorem claim_C1_witness :
    pre_rules_pass ctx0 c1st c1b0 = true ∧ c1b0.index ≤ c1b1.index
  ∧ check_new_block ctx0 c1st c1b0 = BlockQuality.Twin :=
  ⟨by decide, by decide,
    (claim_C1_amended ctx0 c1st c1b0 c1b1 rfl (by decide) (by decide)).2.2
      (by decide)⟩

/-- Claim C5: with no local head, a non-genesis candidate passing the
earlier rules is `Future`; with a configured non-zero origin, a genesis
candidate with a different hash is always `Bad` (every earlier exit is also
`Bad`); a genesis candidate whose hash equals the origin is `Good` absent
other rule failures. -/
theorem claim_C5 (ctx : Ctx) (st : ChainState) (block : Block)
    (hlast : st.last_block = none) :
    (pre_rules_pass ctx st block = true → is_genesis block = false →
        check_new_block ctx st block = BlockQuality.Future)
  ∧ (is_zero st.origin = false → is_genesis block = true →
        block.hash ≠ st.origin →
        check_new_block ctx st block = BlockQuality.Bad)
  ∧ (pre_rules_pass ctx st block = true → is_genesis block = true →
        block.hash = st.origin →
        check_new_block ctx st block = BlockQuality.Good) := by
  refine ⟨fun hpre hg => ?_, fun ho hg hne => ?_, fun hpre hg heq => ?_⟩
  · rw [check_new_block_pre ctx st block hpre]
    simp only [hlast]
    unfold check_genesis
    rw [if_pos hg]
  · simp [check_new_block, hlast, check_genesis, hg, ho, hne]
  · rw [check_new_block_pre ctx st block hpre]
    simp only [hlast]
    unfold check_genesis
    rw [if_neg (by simp [hg]), if_neg (by simp [heq])]

/-- Witness for claim C5: on the empty chain a non-genesis candidate
passing the earlier rules is classified `Future`. -/
theorem claim_C5_witness :
    pre_rules_pass ctx0 st0 c5b = true ∧ is_genesis c5b = false
  ∧ check_new_block ctx0 st0 c5b = BlockQuality.Future :=
  ⟨by decide, by decide, (claim_C5 ctx0 st0 c5b rfl).1 (by decide) (by decide)⟩

/-- Claim C8: with the head at index 10, a candidate at index 12 passing
the earlier rules (and not tripping the temporal-paradox rule) is always
`Future` via the gap rule; a candidate at index 11 is never `Future`. -/
theorem claim_C8 (ctx : Ctx) (st : ChainState) (block last_block : Block)
    (hlast : st.last_block = some last_block) (h10 : last_block.index = 10) :
    (block.index = 12 → pre_rules_pass ctx st block = true →
        last_block.timestamp ≤ block.timestamp →
        check_new_block ctx st block = BlockQuality.Future)
  ∧ (block.index = 11 → check_new_block ctx st block ≠ BlockQuality.Future) := by
  constructor
  · intro h12 hpre hts
    rw [check_new_block_pre ctx st block hpre]
    simp only [hlast]
    unfold check_linkage
    rw [if_neg (fun h => absurd hts (not_le.2 h.1)), if_pos (by omega)]
  · intro h11
    have hle : ¬ (block.index ≤ last_block.index) := by omega
    have hgap : ¬ (last_block.index + 1 < block.index) := by omega
    unfold check_new_block
    simp only [hlast]
    unfold check_linkage
    rw [if_neg hle, if_neg hgap]
    repeat' split
    all_goals simp_all

/-- Witness for claim C8: head at 10, candidate at 12, verdict `Future`. -/
theorem claim_C8_witness :
    pre_rules_pass ctx0 c8st c8cand = true
  ∧ check_new_block ctx0 c8st c8cand = BlockQuality.Future :=
  ⟨by decide, (claim_C8 ctx0 c8st c8cand c8head rfl rfl).1 rfl (by decide) (by decide)⟩

/-- No segment produced by `splitDots` contains a dot. -/
theorem no_dot_mem_splitDots :
    ∀ (l : List Char) (p : List Char), p ∈ splitDots l → '.' ∉ p := by
  intro l
  induction l with
  | nil =>
    intro p hp
    simp [splitDots] at hp
    simp [hp]
  | cons c rest ih =>
    intro p hp
    unfold splitDots at hp
    by_cases hc : c = '.'
    · rw [if_pos hc] at hp
      rcases List.mem_cons.mp hp with h | h
      · simp [h]
      · exact ih p h
    · rw [if_neg hc] at hp
      cases hsr : splitDots rest with
      | nil =>
        rw [hsr] at hp
        simp at hp
        subst hp
        intro hmem
        rcases List.mem_cons.mp hmem with h2 | h2
        · exact hc h2.symm
        · simp at h2
      | cons h t =>
        rw [hsr] at hp
        rcases List.mem_cons.mp hp with h1 | h1
        · subst h1
          intro hmem
          rcases List.mem_cons.mp hmem with h2 | h2
          · exact hc h2.symm
          · exact ih h (by rw [hsr]; exact List.mem_cons_self h t) h2
        · exact ih p (by rw [hsr]; exact List.mem_cons_of_mem h h1)

/-- Joining two or more segments always produces a dot. -/
theorem dot_mem_joinDots :
    ∀ (ps : List (List Char)), 2 ≤ ps.length → '.' ∈ joinDots ps := by
  intro ps hps
  match ps, hps with
  | p :: q :: t, _ =>
    show '.' ∈ joinDots (p :: q :: t)
    show '.' ∈ p ++ '.' :: joinDots (q :: t)
    exact List.mem_append_right p (List.mem_cons_self _ _)

/-- Claim C7: `is_domain_available` rejects the empty domain; rejects every
domain of three or more dot-separated levels for every key and state; for a
two-level domain it is true iff the full domain's identity is available and
the zone (the part after the last dot) is registered; for a one-level
domain, identity availability alone decides. -/
theorem claim_C7 (ctx : Ctx) (st : ChainState) (domain : List Char)
    (public_key : List Nat) :
    is_domain_available ctx st [] public_key = false
  ∧ (3 ≤ (splitDots domain).length →
      is_domain_available ctx st domain public_key = false)
  ∧ ((splitDots domain).length = 2 →
      (is_domain_available ctx st domain public_key = true ↔
        (is_id_available st (ctx.hash_identity domain) public_key = true
          ∧ is_zone_in_blockchain ctx st ((splitDots domain).getLastD []) = true)))
  ∧ ((splitDots domain).length = 1 → domain ≠ [] →
      (is_domain_available ctx st domain public_key = true ↔
        is_id_available st (ctx.hash_identity domain) public_key = true)) := by
  refine ⟨rfl, fun h3 => ?_, fun h2 => ?_, fun h1 hne => ?_⟩
  · rcases domain with _ | ⟨c, rest⟩
    · simp [splitDots] at h3
    · unfold is_domain_available
      rw [if_neg (by simp)]
      by_cases hid : is_id_available st (ctx.hash_identity (c :: rest)) public_key
      · rw [if_neg (by simp [hid])]
        have hr : rsplitn2 (c :: rest) =
            [(splitDots (c :: rest)).getLastD [],
              joinDots (splitDots (c :: rest)).dropLast] := by
          unfold rsplitn2
          rw [if_neg (by omega)]
        have hdl : 2 ≤ ((splitDots (c :: rest)).dropLast).length := by
          rw [List.length_dropLast]
          omega
        have hdot : '.' ∈ joinDots (splitDots (c :: rest)).dropLast :=
          dot_mem_joinDots _ hdl
        rw [hr]
        simp [List.getLastD_cons, hdot]
      · simp [hid, is_domain_available]
  · obtain ⟨p, q, hpq⟩ := List.length_eq_two.mp h2
    rcases domain with _ | ⟨c, rest⟩
    · simp [splitDots] at hpq
    · unfold is_domain_available
      rw [if_neg (by simp)]
      by_cases hid : is_id_available st (ctx.hash_identity (c :: rest)) public_key
      · rw [if_neg (by simp [hid])]
        have hr : rsplitn2 (c :: rest) = [q, p] := by
          unfold rsplitn2
          rw [if_neg (by omega), hpq]
          rfl
        have hnp : '.' ∉ p :=
          no_dot_mem_splitDots (c :: rest) p (by rw [hpq]; simp)
        rw [hr, hpq]
        simp [List.getLastD_cons, hnp, hid]
      · simp [hid, is_domain_available, hpq]
  · rcases domain with _ | ⟨c, rest⟩
    · exact absurd rfl hne
    · unfold is_domain_available
      rw [if_neg (by simp)]
      by_cases hid : is_id_available st (ctx.hash_identity (c :: rest)) public_key
      · rw [if_neg (by simp [hid])]
        have hr : rsplitn2 (c :: rest) = [c :: rest] := by
          unfold rsplitn2
          rw [if_pos (by omega)]
        rw [hr]
        simp [hid]
      · simp [hid]

/-- Witness for claim C7: the three-level name `a.b.c` is never available. -/
theorem claim_C7_witness :
    3 ≤ (splitDots ['a', '.', 'b', '.', 'c']).length
  ∧ is_domain_available ctx0 st0 ['a', '.', 'b', '.', 'c'] [1] = false :=
  ⟨by decide, (claim_C7 ctx0 st0 ['a', '.', 'b', '.', 'c'] [1]).2.1 (by decide)⟩

/-- `wrap_i64` is the identity on the i64 range (non-negative half). -/
theorem wrap_i64_of_bounds (x : Int) (h0 : 0 ≤ x) (h1 : x < 2 ^ 63) :
    wrap_i64 x = x := by
  unfold wrap_i64
  rw [Int.emod_eq_of_lt (by omega) (by omega)]
  omega

/-- With a non-negative elapsed time in i64 range and a positive interval,
the `intervals` value is the plain truncating division. -/
theorem locker_intervals_eq (ctx : Ctx) (block : Block) (t : Int)
    (hI : 0 < ctx.LOCKER_BLOCK_INTERVAL)
    (h0 : block.timestamp ≤ t) (h1 : t - block.timestamp < 2 ^ 63) :
    locker_intervals ctx block t =
      ((t - block.timestamp).tdiv ctx.LOCKER_BLOCK_INTERVAL).toNat := by
  unfold locker_intervals
  rw [wrap_i64_of_bounds _ (by omega) h1]
  obtain ⟨m, hm⟩ := Int.eq_ofNat_of_zero_le
    (show (0 : Int) ≤ t - block.timestamp by omega)
  obtain ⟨k, hk⟩ := Int.eq_ofNat_of_zero_le hI.le
  rw [hm, hk]
  have htd : ((m : Int)).tdiv (k : Int) = ((m / k : Nat) : Int) := rfl
  rw [htd]
  have hmlt : (m : Int) < 2 ^ 63 := hm ▸ h1
  have hlt : ((m / k : Nat) : Int) < 2 ^ 64 := by
    have hmk : m / k ≤ m := Nat.div_le_self m k
    omega
  rw [Int.emod_eq_of_lt (by positivity) hlt]

/-- The scan loop of `get_block_locker` (a `findSome?` over the index
range) equals: take the stored blocks in that range in order and return the
public key of the first one whose owner differs from `pk`. -/
theorem findSome_eq_map_find (g : Nat → Option Block) (pk : List Nat)
    (l : List Nat) :
    (l.findSome? (fun i =>
      match g i with
      | some b => if b.pub_key ≠ pk then some b.pub_key else none
      | none => none))
    = Option.map Block.pub_key
        ((l.filterMap g).find? (fun b => decide (b.pub_key ≠ pk))) := by
  induction l with
  | nil => rfl
  | cons i l ih =>
    rw [List.findSome?_cons, List.filterMap_cons]
    cases hg : g i with
    | none => exact ih
    | some b =>
      by_cases hb : b.pub_key ≠ pk
      · simp [hb, List.find?_cons]
      · simp only [List.find?_cons, if_neg hb, decide_eq_false hb]
        exact ih

/-- Claim C3: when the reference block has a non-empty, non-zero hash, its
index is at or above the activation height, the last full block `L`
satisfies `L.index + LOCKER_BLOCK_COUNT > block.index`, and the elapsed
time `t - block.timestamp` is non-negative (and inside the i64 range),
`get_block_locker` computes `intervals` as the truncating division by
`LOCKER_BLOCK_INTERVAL`, takes `tail` as the low 64 bits of the hash,
starts the scan at `1 + ((tail + tail * intervals) mod 2^64) mod
(block.index - 2)`, scans the stored blocks at the indices up to
`block.index - 1` in order without wrapping, and returns the public key of
the first scanned block whose owner differs from the reference block's, or
no restriction if none does. -/
theorem claim_C3 (ctx : Ctx) (st : ChainState) (block : Block) (t : Int)
    (L : Block)
    (hI : 0 < ctx.LOCKER_BLOCK_INTERVAL)
    (hne : block.hash.isEmpty = false) (hnz : is_zero block.hash = false)
    (hstart : ctx.LOCKER_BLOCK_START ≤ block.index)
    (hL : get_last_full_block st = some L)
    (hwin : block.index < L.index + ctx.LOCKER_BLOCK_COUNT)
    (hts : block.timestamp ≤ t) (hbound : t - block.timestamp < 2 ^ 63) :
    get_block_locker ctx st block t =
      Option.map Block.pub_key
        (((List.range'
            (1 + ((get_tail_u64 block.hash
                + get_tail_u64 block.hash
                  * ((t - block.timestamp).tdiv ctx.LOCKER_BLOCK_INTERVAL).toNat)
              % 2 ^ 64) % (block.index - 2))
            (block.index -
              (1 + ((get_tail_u64 block.hash
                  + get_tail_u64 block.hash
                    * ((t - block.timestamp).tdiv ctx.LOCKER_BLOCK_INTERVAL).toNat)
                % 2 ^ 64) % (block.index - 2)))).filterMap
          (fun i => get_block st i)).find?
          (fun b => decide (b.pub_key ≠ block.pub_key))) := by
  have hiv : locker_intervals ctx block t =
      ((t - block.timestamp).tdiv ctx.LOCKER_BLOCK_INTERVAL).toNat :=
    locker_intervals_eq ctx block t hI hts hbound
  have hstarteq : locker_start ctx block t =
      1 + ((get_tail_u64 block.hash
          + get_tail_u64 block.hash
            * ((t - block.timestamp).tdiv ctx.LOCKER_BLOCK_INTERVAL).toNat)
        % 2 ^ 64) % (block.index - 2) := by
    unfold locker_start
    rw [hiv]
  have hlocked : lockedEnough ctx st block = false := by
    unfold lockedEnough
    rw [hL]
    exact decide_eq_false (by omega)
  unfold get_block_locker
  rw [if_neg (by simp [hne, hnz]), if_neg (by omega), if_neg (by simp [hlocked]),
    hstarteq]
  exact findSome_eq_map_find (fun i => get_block st i) block.pub_key _

/-- Witness for claim C3: reference block `c3B` at index 4, interval zero
elapsed, tail 1: the scan starts at index 2 and returns the owner `[9]` of
the stored block `c3b2`. -/
theorem claim_C3_witness :
    get_block_locker ctx0 c3st c3B 0 = some [9] :=
  (claim_C3 ctx0 c3st c3B 0 c3B (by decide) (by decide) (by decide) (by decide)
    (by decide) (by decide) (by decide) (by decide)).trans (by decide)
